import Mathlib

/-!
Verification development for the report-extraction pipeline of `src/app.py`
(the MPIE Streamlit dashboard).  Strings are modelled as `List Char`.  The
concrete regular expressions used by the script are modelled by dedicated
functions that follow the backtracking semantics of those exact patterns.
Numbers are modelled as rationals.  Character classes are modelled on the
ASCII fragment actually exercised by the report grammar.
-/

deriving instance DecidableEq for Except

/-- Python whitespace (the `\s` class and `str.strip`, ASCII fragment). -/
def pyIsSpace (c : Char) : Bool :=
  c == ' ' || c == '\t' || c == '\n' || c == '\r' || c == '\x0b' || c == '\x0c'

/-- Line-break characters recognised by `str.splitlines` (ASCII fragment). -/
def isLineBreak (c : Char) : Bool :=
  c == '\n' || c == '\r' || c == '\x0b' || c == '\x0c'

/-- Python `str.strip()`: remove whitespace from both ends. -/
def pyStrip (s : List Char) : List Char :=
  ((s.dropWhile pyIsSpace).reverse.dropWhile pyIsSpace).reverse

/-- Python `str.capitalize()` (ASCII model): the first character is
upper-cased and every remaining character is lower-cased. -/
def pyCapitalize : List Char → List Char
  | [] => []
  | c :: t => c.toUpper :: t.map Char.toLower

/-- Helper for `pySplitlines`: accumulate the current line (reversed). -/
def pySplitlinesAux (acc : List Char) : List Char → List (List Char)
  | [] => [acc.reverse]
  | '\r' :: '\n' :: t =>
    match t with
    | [] => [acc.reverse]
    | _ => acc.reverse :: pySplitlinesAux [] t
  | c :: t =>
    if isLineBreak c then
      match t with
      | [] => [acc.reverse]
      | _ => acc.reverse :: pySplitlinesAux [] t
    else pySplitlinesAux (c :: acc) t

/-- Python `str.splitlines()` (ASCII fragment): split on `\n`, `\r`,
`\r\n`, `\x0b`, `\x0c`; no trailing empty line. -/
def pySplitlines : List Char → List (List Char)
  | [] => []
  | c :: t => pySplitlinesAux [] (c :: t)

/-- Suffix of `s` that follows the first occurrence of the literal `pat`;
`none` when `pat` does not occur.  Models the scanning loop of `re.search`
for a pattern that begins with this literal. -/
def afterFirst (pat : List Char) : List Char → Option (List Char)
  | [] => if pat.isPrefixOf ([] : List Char) then some [] else none
  | c :: t =>
    if pat.isPrefixOf (c :: t) then some ((c :: t).drop pat.length)
    else afterFirst pat t

/-- Index of the first occurrence of two consecutive newline characters. -/
def findNLNL : List Char → Option Nat
  | [] => none
  | [_] => none
  | a :: b :: t =>
    if a == '\n' && b == '\n' then some 0
    else (findNLNL (b :: t)).map (· + 1)

/-- Index of the last occurrence of character `c`. -/
def lastIdx (c : Char) : List Char → Option Nat
  | [] => none
  | a :: t =>
    match lastIdx c t with
    | some j => some (j + 1)
    | none => if a == c then some 0 else none

/-- Effectful map over `Option`, aborting at the first failure; models a
Python list comprehension whose body may raise. -/
def listMapM (f : α → Option β) : List α → Option (List β)
  | [] => some []
  | a :: t =>
    match f a with
    | none => none
    | some b => (listMapM f t).map (b :: ·)

/-- Literal marker `"Best column:"` (pattern of `app.py` line 75). -/
def bcMarker : List Char := "Best column:".toList

/-- Literal marker `"Reward break-down:"` (pattern of `app.py` line 76). -/
def rwMarker : List Char := "Reward break-down:".toList

/-- Literal marker `"Top relations:"` (pattern of `app.py` line 79). -/
def relMarker : List Char := "Top relations:".toList

/-- Model of `re.search(r"Best column:\s*(.*)", raw)` followed by
`.group(1)`: after the first occurrence of the marker, the greedy `\s*`
skips maximal whitespace (newlines included) and `(.*)` captures up to the
next newline.  This attempt always succeeds at the first occurrence. -/
def searchBestCol (raw : List Char) : Option (List Char) :=
  (afterFirst bcMarker raw).map
    (fun t => (t.dropWhile pyIsSpace).takeWhile (fun c => c != '\n'))

/-- One attempt of the tail `\s*({.*})` of the reward pattern at a fixed
occurrence of the marker: greedy `\s*` forces maximal whitespace skip (a
shorter skip leaves a whitespace character where `\x7b` is required), then
`.*` with backtracking captures up to the last `\x7d` on the same line. -/
def rewardAttempt (t : List Char) : Option (List Char) :=
  match t.dropWhile pyIsSpace with
  | '\x7b' :: rest =>
    let line := rest.takeWhile (fun c => c != '\n')
    match lastIdx '\x7d' line with
    | some j => some ('\x7b' :: line.take (j + 1))
    | none => none
  | _ => none

/-- Model of `re.search(r"Reward break-down:\s*({.*})", raw)` followed by
`.group(1)`: scan left to right; at each occurrence of the marker literal
try the tail, moving on to the next occurrence when the attempt fails. -/
def searchReward : List Char → Option (List Char)
  | [] => none
  | c :: t =>
    if rwMarker.isPrefixOf (c :: t) then
      match rewardAttempt ((c :: t).drop rwMarker.length) with
      | some g => some g
      | none => searchReward t
    else searchReward t

/-- Backtracking of `\s*([\s\S]*?)\n\n` at a fixed occurrence: for the
whitespace-skip length `k` descending from maximal, the lazy group captures
up to the first `"\n\n"` at or after position `k`; the first success wins. -/
def tryWs : Nat → List Char → Option (List Char)
  | 0, t =>
    match findNLNL t with
    | some r => some (t.take r)
    | none => none
  | k + 1, t =>
    match findNLNL (t.drop (k + 1)) with
    | some r => some ((t.drop (k + 1)).take r)
    | none => tryWs k t

/-- One attempt of the tail `\s*([\s\S]*?)\n\n` of the relations pattern:
the greedy `\s*` starts at the maximal whitespace run. -/
def relAttempt (t : List Char) : Option (List Char) :=
  tryWs (t.takeWhile pyIsSpace).length t

/-- Model of `re.search(r"Top relations:\s*([\s\S]*?)\n\n", raw)` followed
by `.group(1)`: scan for the marker literal, trying the tail at each
occurrence in turn. -/
def searchRel : List Char → Option (List Char)
  | [] => none
  | c :: t =>
    if relMarker.isPrefixOf (c :: t) then
      match relAttempt ((c :: t).drop relMarker.length) with
      | some g => some g
      | none => searchRel t
    else searchRel t

/-- Character code 39 (single quote). -/
def apos : Char := Char.ofNat 39

/-- Character code 34 (double quote). -/
def dquote : Char := Char.ofNat 34

/-- Character code 92 (backslash). -/
def bslash : Char := Char.ofNat 92

/-- Model of `.replace(Char.ofNat 39, Char.ofNat 34)` applied per character
(`app.py` line 77 turns single quotes into double quotes). -/
def swapQuote (c : Char) : Char := if c == apos then dquote else c

/-- JSON whitespace (space, tab, newline, carriage return). -/
def jsonWs (c : Char) : Bool := c == ' ' || c == '\t' || c == '\n' || c == '\r'

/-- Numeric value of a list of decimal digit characters. -/
def digitsToNat (ds : List Char) : Nat :=
  ds.foldl (fun n c => n * 10 + (c.toNat - 48)) 0

/-- JSON integer part: `0`, or a nonzero digit followed by digits.  A lone
leading `0` leaves any following digit unconsumed, so `01` is rejected by
the surrounding grammar exactly as `json.loads` rejects it. -/
def jsonIntPart : List Char → Option (Nat × List Char)
  | '0' :: t => some (0, t)
  | c :: t =>
    if c.isDigit then
      let ds := (c :: t).takeWhile Char.isDigit
      some (digitsToNat ds, (c :: t).drop ds.length)
    else none
  | [] => none

/-- JSON fraction part, when present: a dot followed by one or more digits;
the digit run is returned so the caller can build an exact fraction. -/
def jsonFracPart : List Char → Option (List Char × List Char)
  | '.' :: t =>
    let ds := t.takeWhile Char.isDigit
    if ds.isEmpty then none else some (ds, t.drop ds.length)
  | s => some ([], s)

/-- Unsigned digit run of a JSON exponent. -/
def jsonExpNat (s : List Char) : Option (Nat × List Char) :=
  let ds := s.takeWhile Char.isDigit
  if ds.isEmpty then none else some (digitsToNat ds, s.drop ds.length)

/-- Signed digit run of a JSON exponent. -/
def jsonExpDigits : List Char → Option (Int × List Char)
  | '+' :: t => (jsonExpNat t).map (fun p => ((p.1 : Int), p.2))
  | '-' :: t => (jsonExpNat t).map (fun p => (-(p.1 : Int), p.2))
  | s => (jsonExpNat s).map (fun p => ((p.1 : Int), p.2))

/-- JSON exponent part, when present: `e`/`E`, optional sign, digits. -/
def jsonExpPart : List Char → Option (Int × List Char)
  | 'e' :: t => jsonExpDigits t
  | 'E' :: t => jsonExpDigits t
  | s => some (0, s)

/-- Exact rational value of a decoded JSON number with integer part `ip`,
fraction digits `fds`, exponent `e` and sign `neg`. -/
def jsonVal (neg : Bool) (ip : Nat) (fds : List Char) (e : Int) : ℚ :=
  let mantissa : Nat := ip * 10 ^ fds.length + digitsToNat fds
  let num : Int := if neg then -(mantissa : Int) else (mantissa : Int)
  if 0 ≤ e then mkRat (num * (10 : Int) ^ e.toNat) (10 ^ fds.length)
  else mkRat num (10 ^ fds.length * 10 ^ (-e).toNat)

/-- JSON number (decoded to a rational). -/
def jsonNumber (s : List Char) : Option (ℚ × List Char) :=
  let signed := match s with
    | '-' :: t => (true, t)
    | _ => (false, s)
  match jsonIntPart signed.2 with
  | none => none
  | some (ip, r1) =>
    match jsonFracPart r1 with
    | none => none
    | some (fds, r2) =>
      match jsonExpPart r2 with
      | none => none
      | some (e, r3) => some (jsonVal signed.1 ip fds e, r3)

/-- Body of a JSON string key after the opening quote: plain characters up
to the closing quote (escape sequences are outside the modelled fragment
and rejected). -/
def jsonKeyAux : List Char → Option (List Char × List Char)
  | [] => none
  | c :: t =>
    if c == dquote then some ([], t)
    else if c == bslash then none
    else (jsonKeyAux t).map (fun p => (c :: p.1, p.2))

/-- JSON string key, including the opening quote. -/
def jsonKey : List Char → Option (List Char × List Char)
  | [] => none
  | c :: t => if c == dquote then jsonKeyAux t else none

/-- Insertion into an ordered key-value list with Python `dict` semantics:
a repeated key keeps its first position and takes the latest value. -/
def insertKV (l : List (List Char × ℚ)) (k : List Char) (v : ℚ) :
    List (List Char × ℚ) :=
  if l.any (fun kv => kv.1 == k) then
    l.map (fun kv => if kv.1 == k then (k, v) else kv)
  else l ++ [(k, v)]

/-- Members of a JSON object after the opening brace: `key : number` pairs
separated by commas, ended by the closing brace.  The fuel argument only
bounds recursion and is chosen large enough never to run out. -/
def jsonPairsF : Nat → List Char → List (List Char × ℚ) →
    Option (List (List Char × ℚ) × List Char)
  | 0, _, _ => none
  | fuel + 1, s, acc =>
    match jsonKey (s.dropWhile jsonWs) with
    | none => none
    | some (k, r1) =>
      match r1.dropWhile jsonWs with
      | ':' :: r3 =>
        match jsonNumber (r3.dropWhile jsonWs) with
        | none => none
        | some (q, r4) =>
          match r4.dropWhile jsonWs with
          | ',' :: r6 => jsonPairsF fuel r6 (insertKV acc k q)
          | '\x7d' :: r6 => some (insertKV acc k q, r6)
          | _ => none
      | _ => none

/-- Model of `json.loads` on the flat fragment the report grammar uses: a
single object whose values are numbers (`app.py` line 77). -/
def jsonLoadsFlat (s : List Char) : Option (List (List Char × ℚ)) :=
  match s.dropWhile jsonWs with
  | '\x7b' :: t =>
    match t.dropWhile jsonWs with
    | '\x7d' :: r =>
      if (r.dropWhile jsonWs).isEmpty then some [] else none
    | _ =>
      match jsonPairsF (t.length + 1) t [] with
      | none => none
      | some (kvs, rest) =>
        if (rest.dropWhile jsonWs).isEmpty then some kvs else none
  | _ => none

/-- Literal `"deg="` of the relation-line pattern. -/
def degLit : List Char := "deg=".toList

/-- Literal `"R²="` of the relation-line pattern. -/
def r2Lit : List Char := ['R', '²', '=']

/-- Characters admitted by the `[\d.]` class. -/
def digitOrDot (c : Char) : Bool := c.isDigit || c == '.'

/-- Tail `\s*deg=\d+\s*R²=([\d.]+)` of the relation-line pattern at a fixed
position: each greedy run is forced maximal (a shorter whitespace run would
put a whitespace character where a literal is required, and a shorter digit
run would put a digit there), so no backtracking arises inside this tail. -/
def relSuffix (s : List Char) : Option (List Char) :=
  let s1 := s.dropWhile pyIsSpace
  if degLit.isPrefixOf s1 then
    let s2 := s1.drop degLit.length
    let ds := s2.takeWhile Char.isDigit
    if ds.isEmpty then none
    else
      let s3 := (s2.drop ds.length).dropWhile pyIsSpace
      if r2Lit.isPrefixOf s3 then
        let fs := (s3.drop r2Lit.length).takeWhile digitOrDot
        if fs.isEmpty then none else some fs
      else none
  else none

/-- Lazy second group `(.*?)` of the relation-line pattern: positions are
tried from left to right, the first one at which the tail matches wins. -/
def relTailGo (acc rest : List Char) : Option (List Char × List Char) :=
  match relSuffix rest with
  | some g3 => some (acc.reverse, g3)
  | none =>
    match rest with
    | [] => none
    | c :: t => relTailGo (c :: acc) t

/-- Lazy first group `(.*?)→` of the relation-line pattern: each arrow
occurrence is tried from left to right; when the remainder fails to match,
the group extends past that arrow. -/
def relMatchGo (acc rest : List Char) :
    Option (List Char × List Char × List Char) :=
  match rest with
  | [] => none
  | c :: t =>
    if c == '→' then
      match relTailGo [] t with
      | some (b, g3) => some (acc.reverse, b, g3)
      | none => relMatchGo (c :: acc) t
    else relMatchGo (c :: acc) t

/-- Model of `re.match(r"(.*?)→(.*?)\s*deg=\d+\s*R²=([\d.]+)", l)` followed
by `.groups()` (`app.py` line 81). -/
def relMatch (l : List Char) : Option (List Char × List Char × List Char) :=
  relMatchGo [] l

/-- Exceptions the parsing section of the script can raise: calling
`.group` or `.groups` on a failed match raises `AttributeError` (one
uniform error with no field or line information), `json.loads` raises a
decode error, and `float` raises `ValueError`. -/
inductive PyExn where
  | attrGroup
  | attrGroups
  | jsonError
  | valueError
  | runtimeError (output : List Char)
  deriving DecidableEq

/-- Typed result of the parsing section (`app.py` lines 75-83):
`best_col`, the decoded reward mapping, and the relation-line groups. -/
structure Report where
  bestCol : List Char
  reward : List (List Char × ℚ)
  relations : List (List Char × List Char × List Char)
  deriving DecidableEq

/-- Model of `app.py` lines 75-83 as executed top to bottom: extract
`best_col`, the reward object, and the relations block, in that order,
stopping at the first raised exception. -/
def parse (raw : List Char) : Except PyExn Report :=
  match searchBestCol raw with
  | none => Except.error PyExn.attrGroup
  | some g1 =>
    match searchReward raw with
    | none => Except.error PyExn.attrGroup
    | some row =>
      match jsonLoadsFlat (row.map swapQuote) with
      | none => Except.error PyExn.jsonError
      | some kvs =>
        match searchRel raw with
        | none => Except.error PyExn.attrGroup
        | some blk =>
          match listMapM relMatch (pySplitlines (pyStrip blk)) with
          | none => Except.error PyExn.attrGroups
          | some rels => Except.ok ⟨pyStrip g1, kvs, rels⟩

/-- Model of Python `float()` on the strings the `[\d.]+` group can
produce: digits with at most one dot, not a lone dot. -/
def pyFloat (s : List Char) : Option ℚ :=
  let ip := s.takeWhile Char.isDigit
  match s.drop ip.length with
  | [] => if ip.isEmpty then none else some (mkRat (digitsToNat ip) 1)
  | '.' :: t =>
    let fp := t.takeWhile Char.isDigit
    if (t.drop fp.length).isEmpty then
      if ip.isEmpty && fp.isEmpty then none
      else some (mkRat (digitsToNat ip * 10 ^ fp.length + digitsToNat fp)
        (10 ^ fp.length))
    else none
  | _ => none

/-- Chart label of one relation-line group triple (`app.py` line 94):
stripped source, arrow, stripped target. -/
def relLabel (t : List Char × List Char × List Char) : List Char :=
  pyStrip t.1 ++ '→' :: pyStrip t.2.1

/-- Presentation data the script hands to the rendering layer: the best
column, the metric tiles, the bar-chart series, and the raw report. -/
structure Presentation where
  bestColumn : List Char
  metrics : List (List Char × ℚ)
  chartSeries : List (List Char × ℚ)
  rawReport : List Char
  deriving DecidableEq

/-- Model of the presentation step (`app.py` lines 86-106): metric labels
via `str.capitalize` in reward order, chart labels and `float` values in
relation order, the raw text passed through. -/
def project (raw : List Char) (rep : Report) : Except PyExn Presentation :=
  match listMapM (fun t => pyFloat t.2.2) rep.relations with
  | none => Except.error PyExn.valueError
  | some vals =>
    Except.ok ⟨rep.bestCol,
      rep.reward.map (fun kv => (pyCapitalize kv.1, kv.2)),
      List.zip (rep.relations.map relLabel) vals, raw⟩

/-- Captured outcome of one spawned analysis process. -/
structure ProcessResult where
  exitCode : Int
  output : List Char
  deriving DecidableEq

/-- Model of `run_agent` (`app.py` lines 42-51): stdout and stderr are
captured as one stream; a non-zero exit code raises `RuntimeError` carrying
that captured text; otherwise the captured text is returned. -/
def run_agent (res : ProcessResult) : Except PyExn (List Char) :=
  if res.exitCode ≠ 0 then Except.error (PyExn.runtimeError res.output)
  else Except.ok res.output

/-- End-to-end pipeline of the script: run the agent, parse its captured
output, project the parsed report for display. -/
def pipeline (res : ProcessResult) : Except PyExn Presentation :=
  match run_agent res with
  | Except.error e => Except.error e
  | Except.ok raw =>
    match parse raw with
    | Except.error e => Except.error e
    | Except.ok rep => project raw rep

/-- Display-casing rule as the spec describes it, for comparison with the
code's `pyCapitalize`: the first character is capitalized and every other
character is left exactly as it appeared. -/
def specDisplayCase : List Char → List Char
  | [] => []
  | c :: t => c.toUpper :: t

/-- Raw report text of the end-to-end scenario of the spec (section 8). -/
def c1raw : List Char :=
  ("Best column: temperature\nReward break-down: \x7b\x27accuracy\x27: 0.91, \x27stability\x27: 0.77\x7d\nTop relations:\npressure → volume deg=2 R²=0.88\ntime → temperature deg=1 R²=0.65\n\n" : String).toList

set_option maxRecDepth 10000 in
/-- C1: for the given raw report and exit code 0, the pipeline yields best
column `temperature`, metrics `Accuracy 0.91`, `Stability 0.77` in that
order, and chart series `pressure→volume 0.88`, `time→temperature 0.65` in
that order. -/
theorem c1_end_to_end : pipeline ⟨0, c1raw⟩ = Except.ok ⟨"temperature".toList,
    [("Accuracy".toList, mkRat 91 100), ("Stability".toList, mkRat 77 100)],
    [("pressure→volume".toList, mkRat 88 100),
      ("time→temperature".toList, mkRat 65 100)],
    c1raw⟩ := by decide

/-- C2 counterexample: on exit code 2 the runner `run_agent` raises
(`RuntimeError` carrying the captured output); it does not return the
captured result to its caller, contrary to the claim. -/
theorem c2_runner_raises_counterexample :
    run_agent ⟨2, "boom".toList⟩ =
      Except.error (PyExn.runtimeError "boom".toList) := by decide

/-- C2 amended: for every invocation whose process exits non-zero, the
runner itself classifies the exit status and raises `RuntimeError` carrying
the captured output; only a zero exit returns the output. -/
theorem c2_runner_raises_on_nonzero_exit (res : ProcessResult)
    (h : res.exitCode ≠ 0) :
    run_agent res = Except.error (PyExn.runtimeError res.output) := by
  unfold run_agent
  simp [h]

/-- C2 witness: the amended theorem applied at exit code 2. -/
theorem c2_runner_raises_on_nonzero_exit_witness :
    ((2 : Int) ≠ 0) ∧ run_agent ⟨2, "diag".toList⟩ =
      Except.error (PyExn.runtimeError "diag".toList) :=
  ⟨by decide, c2_runner_raises_on_nonzero_exit ⟨2, "diag".toList⟩ (by decide)⟩

/-- Raw report whose reward component name `SNR` contains upper-case
characters after the first. -/
def c3raw : List Char :=
  ("Best column: x\nReward break-down: \x7b\x27SNR\x27: 0.5\x7d\nTop relations:\n\n" : String).toList

/-- Parsed report of `c3raw`. -/
def c3rep : Report := ⟨"x".toList, [("SNR".toList, mkRat 5 10)], []⟩

/-- Presentation of `c3raw`. -/
def c3pres : Presentation := ⟨"x".toList, [("Snr".toList, mkRat 5 10)], [], c3raw⟩

set_option maxRecDepth 10000 in
/-- C3 counterexample: for the reward component named `SNR` the displayed
label is `Snr`, because `str.capitalize` lower-cases every character after
the first; the claim's rule (first character capitalized, all others left
exactly as in the report) would give `SNR`, so the claim is false. -/
theorem c3_capitalize_counterexample :
    parse c3raw = Except.ok c3rep ∧
    project c3raw c3rep = Except.ok c3pres ∧
    c3pres.metrics = [("Snr".toList, mkRat 5 10)] ∧
    specDisplayCase "SNR".toList = "SNR".toList ∧
    "Snr".toList ≠ "SNR".toList :=
  ⟨by decide, by decide, by decide, by decide, by decide⟩

/-- C3 amended: every displayed metric label is Python `str.capitalize` of
the reward component name — the first character upper-cased and every
remaining character lower-cased — with values passed through unchanged. -/
theorem c3_metrics_labels (raw : List Char) (rep : Report) (p : Presentation)
    (_hp : parse raw = Except.ok rep)
    (hpr : project raw rep = Except.ok p) :
    p.metrics = rep.reward.map (fun kv => (pyCapitalize kv.1, kv.2)) := by
  unfold project at hpr
  cases h : listMapM (fun t => pyFloat t.2.2) rep.relations with
  | none => rw [h] at hpr; cases hpr
  | some vals => rw [h] at hpr; cases hpr; rfl

set_option maxRecDepth 10000 in
/-- C3 witness: the amended theorem applied to the `SNR` report. -/
theorem c3_metrics_labels_witness :
    parse c3raw = Except.ok c3rep ∧ project c3raw c3rep = Except.ok c3pres ∧
    c3pres.metrics = c3rep.reward.map (fun kv => (pyCapitalize kv.1, kv.2)) :=
  ⟨by decide, by decide,
    c3_metrics_labels c3raw c3rep c3pres (by decide) (by decide)⟩

/-- Occurrence-free strings make the marker scan fail. -/
theorem afterFirst_eq_none (pat : List Char) (s : List Char)
    (h : ¬ pat <:+: s) : afterFirst pat s = none := by
  induction s with
  | nil =>
    have hp : pat.isPrefixOf ([] : List Char) = false := by
      rw [Bool.eq_false_iff]
      intro hb
      exact h (List.isPrefixOf_iff_prefix.mp hb).isInfix
    simp [afterFirst, hp]
  | cons c t ih =>
    have hp : pat.isPrefixOf (c :: t) = false := by
      rw [Bool.eq_false_iff]
      intro hb
      exact h (List.isPrefixOf_iff_prefix.mp hb).isInfix
    have ht : ¬ pat <:+: t := fun hi => h (hi.trans (List.suffix_cons c t).isInfix)
    simp [afterFirst, hp, ih ht]

/-- Raw text that lacks the best-column marker (reward marker present). -/
def c4rawA : List Char :=
  ("Reward break-down: \x7b\x27a\x27: 0.5\x7d\nTop relations:\n\n" : String).toList

/-- Raw text that lacks the reward marker (best-column marker present). -/
def c4rawB : List Char :=
  ("Best column: x\nTop relations:\n\n" : String).toList

set_option maxRecDepth 10000 in
/-- C4 counterexample: a text missing the best-column marker and a text
missing a different mandatory marker fail with the identical untagged
exception (`AttributeError` from calling `.group` on `None`), so the
failure carries no `field="bestColumn"` structure, contrary to the claim
that it is a structured `ParseError` naming that field. -/
theorem c4_unstructured_error_counterexample :
    parse c4rawA = Except.error PyExn.attrGroup ∧
    parse c4rawB = Except.error PyExn.attrGroup :=
  ⟨by decide, by decide⟩

/-- C4 amended: for every raw text in which the marker `Best column:` does
not occur, parsing fails at once — with the untagged `AttributeError` of
`.group` on a failed match rather than a structured field error — and no
report value is produced. -/
theorem c4_missing_marker_fails (raw : List Char)
    (h : ¬ bcMarker <:+: raw) : parse raw = Except.error PyExn.attrGroup := by
  have hb : searchBestCol raw = none := by
    unfold searchBestCol
    rw [afterFirst_eq_none bcMarker raw h]
    rfl
  unfold parse
  rw [hb]

/-- C4 witness: the amended theorem applied to a marker-free text. -/
theorem c4_missing_marker_fails_witness :
    (¬ bcMarker <:+: "hello".toList) ∧
    parse "hello".toList = Except.error PyExn.attrGroup :=
  ⟨by decide, c4_missing_marker_fails "hello".toList (by decide)⟩

/-- Raw report in which the best-column marker sits at the very end, so
the captured group is empty. -/
def c9raw : List Char :=
  ("Reward break-down: \x7b\x27a\x27: 0.5\x7d\nTop relations:\n\nBest column:" : String).toList

/-- Parsed report of `c9raw`: its best column is the empty string. -/
def c9rep : Report := ⟨[], [("a".toList, mkRat 5 10)], []⟩

set_option maxRecDepth 10000 in
/-- C9 counterexample: parsing `c9raw` succeeds and returns a report whose
`bestColumn` is the empty string, so a successfully parsed report can have
an empty best column, contrary to the claim. -/
theorem c9_empty_bestcol_counterexample :
    parse c9raw = Except.ok c9rep ∧ c9rep.bestCol = [] :=
  ⟨by decide, by decide⟩

/-- C9 amended: the parser applies no non-emptiness check; whenever the
first best-column marker is followed only by whitespace (or nothing) and
parsing succeeds anyway, the returned report's best column is the empty
string, presented as valid. -/
theorem c9_empty_bestcol (raw t : List Char) (rep : Report)
    (ha : afterFirst bcMarker raw = some t)
    (hs : ∀ c ∈ t, pyIsSpace c = true)
    (hp : parse raw = Except.ok rep) :
    rep.bestCol = [] := by
  have hd : t.dropWhile pyIsSpace = [] := List.dropWhile_eq_nil_iff.mpr hs
  have hb : searchBestCol raw = some [] := by
    unfold searchBestCol
    rw [ha]
    simp [hd]
  unfold parse at hp
  cases hr : searchReward raw with
  | none =>
    simp only [hb, hr] at hp
    exact Except.noConfusion hp
  | some row =>
    cases hj : jsonLoadsFlat (row.map swapQuote) with
    | none =>
      simp only [hb, hr, hj] at hp
      exact Except.noConfusion hp
    | some kvs =>
      cases hk : searchRel raw with
      | none =>
        simp only [hb, hr, hj, hk] at hp
        exact Except.noConfusion hp
      | some blk =>
        cases hm : listMapM relMatch (pySplitlines (pyStrip blk)) with
        | none =>
          simp only [hb, hr, hj, hk, hm] at hp
          exact Except.noConfusion hp
        | some rels =>
          simp only [hb, hr, hj, hk, hm] at hp
          cases hp
          rfl

set_option maxRecDepth 10000 in
/-- C9 witness: the amended theorem applied to `c9raw`. -/
theorem c9_empty_bestcol_witness :
    afterFirst bcMarker c9raw = some [] ∧
    parse c9raw = Except.ok c9rep ∧ c9rep.bestCol = [] :=
  ⟨by decide, by decide,
    c9_empty_bestcol c9raw [] c9rep (by decide) (by decide) (by decide)⟩

/-- A string with no two consecutive newlines makes the blank-line scan
fail. -/
theorem findNLNL_eq_none :
    ∀ s : List Char, ¬ ['\n', '\n'] <:+: s → findNLNL s = none
  | [], _ => rfl
  | [_], _ => rfl
  | a :: b :: t, h => by
    have hab : (a == '\n' && b == '\n') = false := by
      by_cases ha : a = '\n'
      · by_cases hb : b = '\n'
        · exact absurd (List.IsPrefix.isInfix ⟨t, by rw [ha, hb]; rfl⟩) h
        · simp [hb]
      · simp [ha]
    have ht : ¬ ['\n', '\n'] <:+: (b :: t) := fun hi =>
      h (hi.trans (List.suffix_cons a (b :: t)).isInfix)
    unfold findNLNL
    rw [hab, findNLNL_eq_none (b :: t) ht]
    rfl

/-- Every whitespace-backtracking attempt fails on a string that contains
no blank-line separator. -/
theorem tryWs_eq_none (t : List Char) (h : ¬ ['\n', '\n'] <:+: t) :
    ∀ k : Nat, tryWs k t = none := by
  intro k
  have hdrop : ∀ j : Nat, findNLNL (t.drop j) = none := fun j =>
    findNLNL_eq_none (t.drop j)
      (fun hi => h (hi.trans (List.drop_suffix j t).isInfix))
  induction k with
  | zero =>
    have h0 := hdrop 0
    rw [List.drop_zero] at h0
    simp [tryWs, h0]
  | succ k' ih =>
    simp [tryWs, hdrop (k' + 1), ih]

/-- The scan result of `afterFirst` really is the remainder after an
occurrence of the pattern. -/
theorem afterFirst_append_suffix (pat : List Char) :
    ∀ s t : List Char, afterFirst pat s = some t → pat ++ t <:+ s := by
  intro s
  induction s with
  | nil =>
    intro t h
    unfold afterFirst at h
    by_cases hb : pat.isPrefixOf ([] : List Char)
    · rw [if_pos hb] at h
      cases h
      have hpe : pat = [] :=
        List.prefix_nil.mp (List.isPrefixOf_iff_prefix.mp hb)
      simp [hpe]
    · rw [if_neg hb] at h
      exact Option.noConfusion h
  | cons c r ih =>
    intro t h
    unfold afterFirst at h
    by_cases hb : pat.isPrefixOf (c :: r)
    · rw [if_pos hb] at h
      cases h
      have hpre : pat <+: (c :: r) := List.isPrefixOf_iff_prefix.mp hb
      have heq := List.prefix_iff_eq_append.mp hpre
      exact ⟨[], by simpa using heq⟩
    · rw [if_neg hb] at h
      exact (ih t h).trans (List.suffix_cons c r)

/-- When no blank line follows any occurrence of the relations marker, the
whole relations search fails. -/
theorem searchRel_eq_none :
    ∀ raw : List Char,
      (∀ t, afterFirst relMarker raw = some t → ¬ ['\n', '\n'] <:+: t) →
      searchRel raw = none := by
  intro raw
  induction raw with
  | nil => intro _; rfl
  | cons c r ih =>
    intro h
    by_cases hpre : relMarker.isPrefixOf (c :: r)
    · have hafter : afterFirst relMarker (c :: r) =
          some ((c :: r).drop relMarker.length) := by
        unfold afterFirst
        rw [if_pos hpre]
      have hnt := h _ hafter
      have hatt : relAttempt ((c :: r).drop relMarker.length) = none :=
        tryWs_eq_none _ hnt _
      have hr : ∀ t', afterFirst relMarker r = some t' →
          ¬ ['\n', '\n'] <:+: t' := by
        intro t' ht' hi
        have h1 : relMarker ++ t' <:+ r := afterFirst_append_suffix relMarker r t' ht'
        have h3 : t' <:+ (c :: r) :=
          ((List.suffix_append relMarker t').trans h1).trans (List.suffix_cons c r)
        have h4 : (c :: r).drop relMarker.length <:+ (c :: r) :=
          List.drop_suffix _ _
        have hlen : t'.length ≤ ((c :: r).drop relMarker.length).length := by
          have h1l := h1.length_le
          rw [List.length_append] at h1l
          rw [List.length_drop]
          simp only [List.length_cons]
          omega
        have h5 : t' <:+ (c :: r).drop relMarker.length :=
          List.reverse_prefix.mp
            (List.prefix_of_prefix_length_le
              (List.reverse_prefix.mpr h3) (List.reverse_prefix.mpr h4)
              (by simpa using hlen))
        exact hnt (hi.trans h5.isInfix)
      unfold searchRel
      rw [if_pos hpre, hatt]
      exact ih hr
    · have hr : ∀ t', afterFirst relMarker r = some t' →
          ¬ ['\n', '\n'] <:+: t' := by
        intro t' ht'
        apply h
        unfold afterFirst
        rw [if_neg hpre]
        exact ht'
      unfold searchRel
      rw [if_neg hpre]
      exact ih hr

/-- C10: when the first occurrence of the relations marker is never
followed by a blank line (two consecutive newlines) anywhere in the rest of
the input, parsing fails rather than yielding the relation lines. -/
theorem c10_unterminated_block_fails (raw t : List Char)
    (ha : afterFirst relMarker raw = some t)
    (hn : ¬ ['\n', '\n'] <:+: t) :
    (parse raw).isOk = false := by
  have hs : searchRel raw = none := by
    apply searchRel_eq_none
    intro t' ht'
    rw [ha] at ht'
    cases ht'
    exact hn
  unfold parse
  cases h1 : searchBestCol raw with
  | none => rfl
  | some g1 =>
    cases h2 : searchReward raw with
    | none => simp only [h2]; rfl
    | some row =>
      cases h3 : jsonLoadsFlat (row.map swapQuote) with
      | none => simp only [h2, h3]; rfl
      | some kvs => simp only [h2, h3, hs]; rfl

/-- Raw report with well-formed sections but no blank line terminating the
relations block. -/
def c10raw : List Char :=
  ("Best column: x\nReward break-down: \x7b\x27a\x27: 0.5\x7d\nTop relations:\nalpha → beta deg=1 R²=0.5\n" : String).toList

set_option maxRecDepth 10000 in
/-- C10 witness: the theorem applied to a report whose relations block is
never terminated by a blank line. -/
theorem c10_unterminated_block_fails_witness :
    afterFirst relMarker c10raw = some ("\nalpha → beta deg=1 R²=0.5\n".toList) ∧
    (¬ ['\n', '\n'] <:+: ("\nalpha → beta deg=1 R²=0.5\n".toList)) ∧
    (parse c10raw).isOk = false :=
  ⟨by decide, by decide,
    c10_unterminated_block_fails c10raw ("\nalpha → beta deg=1 R²=0.5\n".toList)
      (by decide) (by decide)⟩

/-- A comprehension whose body raises on some element raises overall. -/
theorem listMapM_eq_none (f : α → Option β) :
    ∀ l : List α, (∃ a ∈ l, f a = none) → listMapM f l = none := by
  intro l
  induction l with
  | nil =>
    rintro ⟨a, ha, _⟩
    cases ha
  | cons x t ih =>
    rintro ⟨a, ha, hf⟩
    rcases List.mem_cons.mp ha with rfl | hmem
    · simp [listMapM, hf]
    · cases hx : f x with
      | none => simp [listMapM, hx]
      | some b => simp [listMapM, hx, ih ⟨a, hmem, hf⟩]

/-- Raw report whose relations block holds the malformed line `foo 1`. -/
def c5rawA : List Char :=
  ("Best column: x\nReward break-down: \x7b\x27a\x27: 0.5\x7d\nTop relations:\nfoo 1\n\n" : String).toList

/-- Raw report whose relations block holds the malformed line `bar baz 2`. -/
def c5rawB : List Char :=
  ("Best column: x\nReward break-down: \x7b\x27a\x27: 0.5\x7d\nTop relations:\nbar baz 2\n\n" : String).toList

set_option maxRecDepth 10000 in
/-- C5 counterexample: two reports with different offending relation lines
fail with the identical untagged exception (`AttributeError` from calling
`.groups` on `None`), so the failure carries neither a `relations` field
tag nor the offending line, contrary to the claimed structured
`ParseError{field, detail}`. -/
theorem c5_no_detail_counterexample :
    parse c5rawA = Except.error PyExn.attrGroups ∧
    parse c5rawB = Except.error PyExn.attrGroups :=
  ⟨by decide, by decide⟩

/-- C5 amended: whenever the earlier sections parse and the captured
relations block contains a line the relation pattern does not match,
parsing fails — with the untagged `AttributeError` of `.groups` on a
failed match, carrying no field name and no offending line. -/
theorem c5_bad_line_fails (raw g1 row blk : List Char)
    (kvs : List (List Char × ℚ))
    (hb : searchBestCol raw = some g1)
    (hr : searchReward raw = some row)
    (hj : jsonLoadsFlat (row.map swapQuote) = some kvs)
    (hk : searchRel raw = some blk)
    (hbad : ∃ l ∈ pySplitlines (pyStrip blk), relMatch l = none) :
    parse raw = Except.error PyExn.attrGroups := by
  have hm := listMapM_eq_none relMatch _ hbad
  unfold parse
  simp only [hb, hr, hj, hk, hm]

/-- Raw report whose relations block holds the malformed line
`no arrow here`. -/
def c5rawW : List Char :=
  ("Best column: x\nReward break-down: \x7b\x27a\x27: 0.5\x7d\nTop relations:\nno arrow here\n\n" : String).toList

set_option maxRecDepth 10000 in
/-- C5 witness: the amended theorem applied to a block with one malformed
line. -/
theorem c5_bad_line_fails_witness :
    relMatch ("no arrow here".toList) = none ∧
    parse c5rawW = Except.error PyExn.attrGroups :=
  ⟨by decide,
    c5_bad_line_fails c5rawW ("x".toList)
      ("\x7b\x27a\x27: 0.5\x7d".toList) ("no arrow here".toList)
      [("a".toList, mkRat 5 10)] (by decide) (by decide) (by decide) (by decide)
      ⟨"no arrow here".toList, by decide, by decide⟩⟩

/-- An attempt that succeeds at the first marker occurrence is the search
result. -/
theorem searchRel_of_afterFirst :
    ∀ raw t g : List Char, afterFirst relMarker raw = some t →
      relAttempt t = some g → searchRel raw = some g := by
  intro raw
  induction raw with
  | nil =>
    intro t g ha _
    unfold afterFirst at ha
    rw [if_neg (by decide : ¬ relMarker.isPrefixOf ([] : List Char) = true)] at ha
    exact Option.noConfusion ha
  | cons c r ih =>
    intro t g ha hg
    by_cases hpre : relMarker.isPrefixOf (c :: r)
    · unfold afterFirst at ha
      rw [if_pos hpre] at ha
      cases ha
      unfold searchRel
      rw [if_pos hpre, hg]
    · unfold afterFirst at ha
      rw [if_neg hpre] at ha
      unfold searchRel
      rw [if_neg hpre]
      exact ih t g ha hg

/-- Raw report whose relations marker is immediately followed by a blank
line with a well-formed relation line after it. -/
def c6raw : List Char :=
  ("Best column: t\nReward break-down: \x7b\x27a\x27: 0.5\x7d\nTop relations:\n\nalpha → beta deg=1 R²=0.5\n\n" : String).toList

/-- Parsed report of `c6raw`: one relation, taken from after the blank
line. -/
def c6rep : Report :=
  ⟨"t".toList, [("a".toList, mkRat 5 10)],
    [("alpha ".toList, " beta".toList, "0.5".toList)]⟩

set_option maxRecDepth 10000 in
/-- C6 counterexample: in `c6raw` the marker is immediately followed by a
blank line (zero relation lines before it), yet parsing succeeds with one
relation, not zero: the greedy whitespace skip of the pattern consumes the
immediate blank line and the lazy block extends to the next one, so the
chart series has length 1, contrary to the claimed `relations = []`. -/
theorem c6_blank_line_swallowed_counterexample :
    parse c6raw = Except.ok c6rep ∧
    c6rep.relations.length = 1 ∧
    project c6raw c6rep = Except.ok ⟨"t".toList,
      [("A".toList, mkRat 5 10)], [("alpha→beta".toList, mkRat 5 10)], c6raw⟩ :=
  ⟨by decide, by decide, by decide⟩

/-- C6 amended: the empty-block behaviour holds only when no further blank
line follows — in particular when the input ends right after the blank line
that follows the marker: then `relations = []` and the chart series is
empty; otherwise the block is taken from after the immediate blank line up
to the next one. -/
theorem c6_empty_block_at_end (raw g1 row : List Char)
    (kvs : List (List Char × ℚ))
    (hb : searchBestCol raw = some g1)
    (hr : searchReward raw = some row)
    (hj : jsonLoadsFlat (row.map swapQuote) = some kvs)
    (ht : afterFirst relMarker raw = some ['\n', '\n']) :
    parse raw = Except.ok ⟨pyStrip g1, kvs, []⟩ ∧
    project raw ⟨pyStrip g1, kvs, []⟩ = Except.ok ⟨pyStrip g1,
      kvs.map (fun kv => (pyCapitalize kv.1, kv.2)), [], raw⟩ := by
  have hk : searchRel raw = some [] :=
    searchRel_of_afterFirst raw ['\n', '\n'] [] ht (by decide)
  constructor
  · unfold parse
    simp only [hb, hr, hj, hk]
    rfl
  · unfold project
    rfl

/-- Raw report that ends right after the blank line that follows the
relations marker. -/
def c6rawW : List Char :=
  ("Best column: x\nReward break-down: \x7b\x27a\x27: 0.5\x7d\nTop relations:\n\n" : String).toList

set_option maxRecDepth 10000 in
/-- C6 witness: the amended theorem applied to `c6rawW`. -/
theorem c6_empty_block_at_end_witness :
    afterFirst relMarker c6rawW = some ['\n', '\n'] ∧
    parse c6rawW = Except.ok ⟨"x".toList, [("a".toList, mkRat 5 10)], []⟩ :=
  ⟨by decide,
    (c6_empty_block_at_end c6rawW ("x".toList)
      ("\x7b\x27a\x27: 0.5\x7d".toList) [("a".toList, mkRat 5 10)]
      (by decide) (by decide) (by decide) (by decide)).1⟩

/-- Raw report whose only relation line carries the negative fit score
`-0.2`. -/
def c8raw : List Char :=
  ("Best column: x\nReward break-down: \x7b\x27a\x27: 0.5\x7d\nTop relations:\na → b deg=1 R²=-0.2\n\n" : String).toList

set_option maxRecDepth 10000 in
/-- C8 counterexample: the relation line `a → b deg=1 R²=-0.2`, well
formed under the spec's `<source> → <target> deg=<int> R²=<float>` grammar
with the out-of-range score `-0.2`, is not matched by the code's `[\d.]+`
score pattern (which admits no minus sign), and parsing the report fails —
so a negative fit score does cause a parse failure, contrary to the
claim. -/
theorem c8_negative_score_counterexample :
    relMatch ("a → b deg=1 R²=-0.2".toList) = none ∧
    parse c8raw = Except.error PyExn.attrGroups :=
  ⟨by decide, by decide⟩

/-- C8 amended: a fit score written as any non-empty string of digits and
dots is accepted as-is whatever its magnitude (for example `1.5` or `999`),
because the grammar constrains only the syntax of the score; a negative
score, however, does not match the `[\d.]+` pattern and crashes parsing. -/
theorem c8_score_magnitude_ignored (ds : List Char) (hne : ds ≠ [])
    (hds : ∀ c ∈ ds, digitOrDot c = true) :
    relMatch (['a', ' ', '→', ' ', 'b', ' ', 'd', 'e', 'g', '=', '1', ' ',
      'R', '²', '='] ++ ds) =
      some (['a', ' '], [' ', 'b'], ds) := by
  have htw : ds.takeWhile digitOrDot = ds := List.takeWhile_eq_self_iff.mpr hds
  have hie : ds.isEmpty = false := by
    cases ds with
    | nil => exact absurd rfl hne
    | cons a t => rfl
  simp [relMatch, relMatchGo, relTailGo, relSuffix, degLit, r2Lit,
    pyIsSpace, htw, hie]

/-- C8 witness: the amended theorem applied to the out-of-range score
`1.5`. -/
theorem c8_score_magnitude_ignored_witness :
    (['1', '.', '5'] ≠ ([] : List Char)) ∧
    relMatch (['a', ' ', '→', ' ', 'b', ' ', 'd', 'e', 'g', '=', '1', ' ',
      'R', '²', '='] ++ ['1', '.', '5']) =
      some (['a', ' '], [' ', 'b'], ['1', '.', '5']) :=
  ⟨by decide,
    c8_score_magnitude_ignored ['1', '.', '5'] (by decide) (by decide)⟩

/-- A successful comprehension yields one result per element. -/
theorem listMapM_length (f : α → Option β) :
    ∀ (l : List α) (r : List β), listMapM f l = some r → r.length = l.length := by
  intro l
  induction l with
  | nil =>
    intro r h
    unfold listMapM at h
    cases h
    rfl
  | cons a t ih =>
    intro r h
    unfold listMapM at h
    cases hf : f a with
    | none =>
      rw [hf] at h
      exact Option.noConfusion h
    | some b =>
      cases hm : listMapM f t with
      | none =>
        simp only [hf, hm] at h
        exact Option.noConfusion h
      | some rt =>
        simp only [hf, hm, Option.map_some', Option.some.injEq] at h
        subst h
        simp [ih rt hm]

/-- A successful comprehension is element-wise application in order. -/
theorem listMapM_get (f : α → Option β) :
    ∀ (l : List α) (r : List β), listMapM f l = some r →
      ∀ i : Nat, (l[i]?).bind f = r[i]? := by
  intro l
  induction l with
  | nil =>
    intro r h i
    unfold listMapM at h
    cases h
    simp
  | cons a t ih =>
    intro r h i
    unfold listMapM at h
    cases hf : f a with
    | none =>
      rw [hf] at h
      exact Option.noConfusion h
    | some b =>
      cases hm : listMapM f t with
      | none =>
        simp only [hf, hm] at h
        exact Option.noConfusion h
      | some rt =>
        simp only [hf, hm, Option.map_some', Option.some.injEq] at h
        subst h
        cases i with
        | zero => simp [hf]
        | succ n => simpa using ih rt hm n

/-- Inversion of a successful parse: every stage succeeded and the report
fields are the stage outputs. -/
theorem parse_ok_inv (raw : List Char) (rep : Report)
    (hp : parse raw = Except.ok rep) :
    ∃ g1 row blk,
      searchBestCol raw = some g1 ∧ searchReward raw = some row ∧
      jsonLoadsFlat (row.map swapQuote) = some rep.reward ∧
      searchRel raw = some blk ∧
      listMapM relMatch (pySplitlines (pyStrip blk)) = some rep.relations ∧
      rep.bestCol = pyStrip g1 := by
  unfold parse at hp
  cases hb : searchBestCol raw with
  | none =>
    simp only [hb] at hp
    exact Except.noConfusion hp
  | some g1 =>
    cases hr : searchReward raw with
    | none =>
      simp only [hb, hr] at hp
      exact Except.noConfusion hp
    | some row =>
      cases hj : jsonLoadsFlat (row.map swapQuote) with
      | none =>
        simp only [hb, hr, hj] at hp
        exact Except.noConfusion hp
      | some kvs =>
        cases hk : searchRel raw with
        | none =>
          simp only [hb, hr, hj, hk] at hp
          exact Except.noConfusion hp
        | some blk =>
          cases hm : listMapM relMatch (pySplitlines (pyStrip blk)) with
          | none =>
            simp only [hb, hr, hj, hk, hm] at hp
            exact Except.noConfusion hp
          | some rels =>
            simp only [hb, hr, hj, hk, hm] at hp
            cases hp
            exact ⟨g1, row, blk, rfl, rfl, hj, rfl, hm, rfl⟩

/-- C7: relation order is preserved end to end — when parsing and
projection succeed, the relation list is exactly as long as the block's
line list, the chart series is index-aligned with it, and the entry at
every index `i` is the parse of the `i`-th relation line, labelled
`source→target` (both trimmed) and valued by its own fit score; no
re-sorting happens anywhere. -/
theorem c7_order_preserved (raw blk : List Char) (rep : Report)
    (p : Presentation)
    (hk : searchRel raw = some blk)
    (hp : parse raw = Except.ok rep)
    (hpr : project raw rep = Except.ok p) :
    rep.relations.length = (pySplitlines (pyStrip blk)).length ∧
    p.chartSeries.length = rep.relations.length ∧
    (∀ i : Nat, ∀ t, rep.relations[i]? = some t →
      ((pySplitlines (pyStrip blk))[i]?).bind relMatch = some t ∧
      ∃ v, pyFloat t.2.2 = some v ∧
        p.chartSeries[i]? = some (relLabel t, v)) := by
  obtain ⟨g1, row, blk', _, _, _, hk', hm, _⟩ := parse_ok_inv raw rep hp
  have hblk : blk = blk' := by
    rw [hk] at hk'
    exact Option.some.inj hk'
  subst hblk
  unfold project at hpr
  cases hfl : listMapM
      (fun t : List Char × List Char × List Char => pyFloat t.2.2)
      rep.relations with
  | none =>
    rw [hfl] at hpr
    exact Except.noConfusion hpr
  | some vals =>
    rw [hfl] at hpr
    cases hpr
    have hlen1 : rep.relations.length = (pySplitlines (pyStrip blk)).length :=
      listMapM_length relMatch _ _ hm
    have hlen2 : vals.length = rep.relations.length :=
      listMapM_length _ _ _ hfl
    refine ⟨hlen1, ?_, ?_⟩
    · simp [List.length_zip, hlen2]
    · intro i t ht
      constructor
      · rw [listMapM_get relMatch _ _ hm i]
        exact ht
      · have hv := listMapM_get
          (fun t : List Char × List Char × List Char => pyFloat t.2.2)
          _ _ hfl i
        rw [ht] at hv
        simp only [Option.some_bind] at hv
        cases hpf : pyFloat t.2.2 with
        | none =>
          rw [hpf] at hv
          have hi : i < rep.relations.length := by
            by_contra hge
            rw [List.getElem?_eq_none (Nat.le_of_not_lt hge)] at ht
            exact Option.noConfusion ht
          rw [eq_comm, List.getElem?_eq_none_iff] at hv
          omega
        | some v =>
          rw [hpf] at hv
          refine ⟨v, rfl, ?_⟩
          show (List.zip (rep.relations.map relLabel) vals)[i]? =
            some (relLabel t, v)
          rw [List.getElem?_zip_eq_some]
          exact ⟨by simp [ht], hv.symm⟩

/-- Relations block captured from `c1raw`. -/
def c1blk : List Char :=
  ("pressure → volume deg=2 R²=0.88\ntime → temperature deg=1 R²=0.65" : String).toList

/-- Parsed report of `c1raw`. -/
def c1rep : Report :=
  ⟨"temperature".toList,
    [("accuracy".toList, mkRat 91 100), ("stability".toList, mkRat 77 100)],
    [("pressure ".toList, " volume".toList, "0.88".toList),
      ("time ".toList, " temperature".toList, "0.65".toList)]⟩

/-- Presentation of `c1raw`. -/
def c1pres : Presentation :=
  ⟨"temperature".toList,
    [("Accuracy".toList, mkRat 91 100), ("Stability".toList, mkRat 77 100)],
    [("pressure→volume".toList, mkRat 88 100),
      ("time→temperature".toList, mkRat 65 100)],
    c1raw⟩

set_option maxRecDepth 10000 in
/-- C7 witness: the order-preservation theorem applied to the end-to-end
report. -/
theorem c7_order_preserved_witness :
    parse c1raw = Except.ok c1rep ∧ project c1raw c1rep = Except.ok c1pres ∧
    c1rep.relations.length = (pySplitlines (pyStrip c1blk)).length ∧
    c1pres.chartSeries.length = c1rep.relations.length :=
  ⟨by decide, by decide,
    (c7_order_preserved c1raw c1blk c1rep c1pres (by decide) (by decide)
      (by decide)).1,
    (c7_order_preserved c1raw c1blk c1rep c1pres (by decide) (by decide)
      (by decide)).2.1⟩
